import Mathlib

/-!
Verification development for the GVM video-grid utility (gvm.py).

The program is a single linear pipeline: open a video, read metadata,
sample one frame every 30 seconds, stamp a timestamp label on each frame,
half-resize it, tile the frames into a fixed-column grid, and write the
grid image.  Everything below is a shallow embedding of gvm.py: pure code
is translated to Lean functions, and the interactions with the outside
world (OpenCV decoding, PIL font metrics and glyph rasterisation, file
system) are parameters of an explicit environment record, so that the
whole run is a pure function of that environment.
-/

namespace GVM

/-- An RGB pixel value, as PIL 8-bit channel triples. -/
abbrev Color := ℕ × ℕ × ℕ

/-- The fill colour (0, 0, 0) used for the outline draws at line 114. -/
def blackC : Color := (0, 0, 0)

/-- The fill colour (255, 255, 255) used for the final draw at line 116
and the grid background at line 151. -/
def whiteC : Color := (255, 255, 255)

/-- An in-memory raster image: a width, a height and a total pixel
function (only values at coordinates below the bounds are meaningful). -/
structure Img where
  w : ℕ
  h : ℕ
  pix : ℕ → ℕ → Color

/-- A default image, used only as the fallback of List.getD / headD. -/
def blankImg : Img := ⟨0, 0, fun _ _ => whiteC⟩

/-- Model of a successful PIL Image.resize call (lines 119 and 147):
the target dimensions are exactly the ones the code passes; the LANCZOS
resampling of pixel values is external, modelled as a deterministic
coordinate sampling.  Pillow additionally raises
ValueError (height and width must be > 0) when a target dimension is
not positive; that error contract is modelled by Img.resizeE below and
matters at line 147, where the overflow branch always passes zero. -/
def Img.resize (img : Img) (w h : ℕ) : Img :=
  ⟨w, h, fun x y => img.pix (x * img.w / max w 1) (y * img.h / max h 1)⟩

/-- Model of PIL Image.resize including its error contract: a zero
target dimension raises ValueError (returned as none, to be caught by
the enclosing except handler); otherwise the call succeeds. -/
def Img.resizeE (img : Img) (w h : ℕ) : Option Img :=
  if w = 0 ∨ h = 0 then none else some (img.resize w h)

/-- Resize a list of images left to right with the error contract, as
the list comprehension at line 147 does: the first ValueError aborts
the whole comprehension. -/
def resizeAllE (w h : ℕ) : List Img → Option (List Img)
  | [] => some []
  | img :: rest =>
    match img.resizeE w h with
    | none => none
    | some r =>
      match resizeAllE w h rest with
      | none => none
      | some rs => some (r :: rs)

/-- Model of cv2.cvtColor(frame, cv2.COLOR_BGR2RGB) at line 97: channel
swap, dimensions preserved. -/
def cvtBGR2RGB (img : Img) : Img :=
  ⟨img.w, img.h, fun x y =>
    ((img.pix x y).2.2, (img.pix x y).2.1, (img.pix x y).1)⟩

/-- Model of PIL Image.paste(img, (ox, oy)) at line 153: pixels inside
the pasted rectangle come from the pasted image, the rest keep the
canvas value; canvas dimensions are unchanged. -/
def pasteImg (canvas img : Img) (ox oy : ℕ) : Img :=
  ⟨canvas.w, canvas.h, fun x y =>
    if ox ≤ x ∧ x < ox + img.w ∧ oy ≤ y ∧ y < oy + img.h then
      img.pix (x - ox) (y - oy)
    else canvas.pix x y⟩

/-- Python range(lo, hi) over integers, as used at lines 112-113. -/
def pyRange (lo hi : ℤ) : List ℤ :=
  (List.range (hi - lo).toNat).map (fun k : ℕ => lo + (k : ℤ))

/-- The warning and error messages the script can print (info prints
such as the per-screenshot progress line are not modelled). -/
inductive Msg where
  | errValidation
  | errOpen
  | errMetadata
  | warnFontFallback
  | errFont
  | errTextSize
  | warnReadFail (t : ℕ)
  | errCapture
  | warnDims
  | errNoScreenshots
  | errSave
  deriving DecidableEq

/-! ## Annotator (lines 70-121 of gvm.py) -/

/-- Python format f with 02d padding: two digits, zero padded. -/
def pad2 (n : ℕ) : String :=
  if n < 10 then "0" ++ toString n else toString n

/-- Lines 101-104: timestamp string HH:MM:SS from integer seconds. -/
def fmtTimestamp (t : ℕ) : String :=
  pad2 (t / 3600) ++ ":" ++ pad2 (t % 3600 / 60) ++ ":" ++ pad2 (t % 60)

/-- Lines 107-116 as a list of text-draw operations in program order:
the black outline draws over every offset pair produced by the two
nested Python range(-stroke_width, stroke_width + 1) loops (x outer,
y inner), followed by the single white draw at the unshifted anchor.
The anchor (lines 109-110) is bottom-right: image size minus text size
minus margin, in ℤ since the difference can be negative. -/
def annotateOps (text_width text_height : ℤ) (margin stroke_width : ℕ)
    (imgW imgH : ℕ) : List ((ℤ × ℤ) × Color) :=
  let x : ℤ := (imgW : ℤ) - text_width - (margin : ℤ)
  let y : ℤ := (imgH : ℤ) - text_height - (margin : ℤ)
  ((pyRange (-(stroke_width : ℤ)) ((stroke_width : ℤ) + 1)).flatMap fun offset_x =>
    (pyRange (-(stroke_width : ℤ)) ((stroke_width : ℤ) + 1)).map fun offset_y =>
      ((x + offset_x, y + offset_y), blackC)) ++ [((x, y), whiteC)]

/-- Model of one ImageDraw.text call: the glyph mask of the rendered
string (an external property of the font) is an oracle; pixels covered
by the mask, translated to the draw position, take the fill colour. -/
def drawText (glyph : String → ℤ → ℤ → Bool) (s : String) (img : Img)
    (pos : ℤ × ℤ) (fill : Color) : Img :=
  ⟨img.w, img.h, fun x y =>
    if glyph s ((x : ℤ) - pos.1) ((y : ℤ) - pos.2) then fill else img.pix x y⟩

/-- Execute a list of draw operations in order on an image. -/
def applyOps (glyph : String → ℤ → ℤ → Bool) (s : String) (img : Img)
    (ops : List ((ℤ × ℤ) × Color)) : Img :=
  ops.foldl (fun im op => drawText glyph s im op.1 op.2) img

/-- The full annotation of one frame at timestamp t (lines 100-116). -/
def annotateFrame (glyph : String → ℤ → ℤ → Bool) (text_width text_height : ℤ)
    (margin stroke_width : ℕ) (t : ℕ) (img : Img) : Img :=
  applyOps glyph (fmtTimestamp t) img
    (annotateOps text_width text_height margin stroke_width img.w img.h)

/-- The per-frame processing of the capture loop body (lines 97-119):
BGR to RGB conversion, timestamp annotation, then the unconditional
resize to (img_width // 2, img_height // 2). -/
def procFrame (glyph : String → ℤ → ℤ → Bool) (text_width text_height : ℤ)
    (margin stroke_width : ℕ) (t : ℕ) (frame : Img) : Img :=
  let img := cvtBGR2RGB frame
  let annotated := annotateFrame glyph text_width text_height margin stroke_width t img
  annotated.resize (img.w / 2) (img.h / 2)

/-! ## Frame sampler (lines 46-129 of gvm.py) -/

/-- Line 20: the fixed sampling interval. -/
def interval_sec : ℕ := 30

/-- Line 52: total_screenshots = int(duration_sec // interval_sec) + 1.
For a Python float this is the exact floor; a non-positive value makes
range(total_screenshots) empty, which toNat reproduces. -/
def total_screenshots (duration_sec : ℚ) : ℕ :=
  (⌊duration_sec / (interval_sec : ℚ)⌋ + 1).toNat

/-- The outcome of the capture loop: the processed frames appended in
order, the timestamps at which a read was attempted, and the warnings
printed. -/
structure CaptureResult where
  screenshots : List Img
  attempted : List ℕ
  msgs : List Msg

/-- Lines 86-122: the capture loop, one constructor case per remaining
iteration of range(total_screenshots).  The loop breaks when
current_time ≥ duration (line 88) or when a read fails (lines 93-95,
with a warning); otherwise the processed frame is appended. -/
def captureLoop (duration : ℚ) (read : ℕ → Option Img) (proc : ℕ → Img → Img) :
    ℕ → ℕ → CaptureResult
  | 0, _ => ⟨[], [], []⟩
  | fuel + 1, i =>
    let current_time := i * interval_sec
    if duration ≤ (current_time : ℚ) then ⟨[], [], []⟩
    else
      match read current_time with
      | none => ⟨[], [current_time], [Msg.warnReadFail current_time]⟩
      | some frame =>
        let rest := captureLoop duration read proc fuel (i + 1)
        ⟨proc current_time frame :: rest.screenshots,
         current_time :: rest.attempted, rest.msgs⟩

/-- The whole capture stage: run the loop from index 0 with the fuel the
code computes at line 52. -/
def capture (duration : ℚ) (read : ℕ → Option Img) (proc : ℕ → Img → Img) :
    CaptureResult :=
  captureLoop duration read proc (total_screenshots duration) 0

/-! ## Grid composer (lines 131-161 of gvm.py) -/

/-- Line 152-153 enumerate loop: paste screenshot number i at
((i mod cols) * width, (i div cols) * height), advancing the index. -/
def pasteFrom (cols width height : ℕ) : List Img → ℕ → Img → Img
  | [], _, canvas => canvas
  | img :: rest, i, canvas =>
    pasteFrom cols width height rest (i + 1)
      (pasteImg canvas img ((i % cols) * width) ((i / cols) * height))

/-- Lines 151-153: create the white canvas of the given size and paste
every screenshot at its grid cell, in enumeration order. -/
def pasteAll (shots : List Img) (cols width height gw gh : ℕ) : Img :=
  pasteFrom cols width height shots 0 ⟨gw, gh, fun _ _ => whiteC⟩

/-- Line 143: scale_factor = min(65000 // grid_width, 65000 // grid_height). -/
def scale_factor_of (grid_width grid_height : ℕ) : ℕ :=
  min (65000 / grid_width) (65000 / grid_height)

/-- Lines 140-149, no-exception evaluation: when the canvas exceeds
65000 in either dimension the code computes the scale factor and, when
it is below 1, multiplies the cell dimensions by it and resizes every
screenshot accordingly.  Returns the (possibly rescaled) screenshots
and cell dimensions.  The resize calls of line 147 can raise (their
target is zero exactly when the factor is 0, which is always the case
in the overflow branch); that error contract is modelled faithfully by
scaleForOverflowE below, and this total version agrees with it
everywhere the branch raises no exception. -/
def scaleForOverflow (shots : List Img) (width height rows cols : ℕ) :
    List Img × ℕ × ℕ :=
  let grid_width := width * cols
  let grid_height := height * rows
  if 65000 < grid_width ∨ 65000 < grid_height then
    let scale_factor := scale_factor_of grid_width grid_height
    if scale_factor < 1 then
      let w2 := width * scale_factor
      let h2 := height * scale_factor
      (shots.map fun img => img.resize w2 h2, w2, h2)
    else (shots, width, height)
  else (shots, width, height)

/-- Lines 133-153 for a nonempty screenshot list, no-exception
evaluation: cell size from the first screenshot, row count
(len + cols - 1) // cols, the overflow check (the Bool records whether
the line 141 warning is printed), then canvas creation and the paste
loop.  Exact on every input that does not enter the overflow branch;
composeGridE below carries the error contract of that branch. -/
def composeGrid (shots : List Img) (cols : ℕ) : Img × Bool :=
  let width := (shots.headD blankImg).w
  let height := (shots.headD blankImg).h
  let grid_rows := (shots.length + cols - 1) / cols
  let warn := decide (65000 < width * cols ∨ 65000 < height * grid_rows)
  let scaled := scaleForOverflow shots width height grid_rows cols
  (pasteAll scaled.1 cols scaled.2.1 scaled.2.2
      (scaled.2.1 * cols) (scaled.2.2 * grid_rows), warn)

/-- Lines 140-149 with the resize error contract: the line 147 list
comprehension resizes every screenshot to the scaled cell size and the
first ValueError aborts the block (none).  Outside the scale branch
nothing can raise and the inputs pass through unchanged. -/
def scaleForOverflowE (shots : List Img) (width height rows cols : ℕ) :
    Option (List Img × ℕ × ℕ) :=
  let grid_width := width * cols
  let grid_height := height * rows
  if 65000 < grid_width ∨ 65000 < grid_height then
    let scale_factor := scale_factor_of grid_width grid_height
    if scale_factor < 1 then
      let w2 := width * scale_factor
      let h2 := height * scale_factor
      match resizeAllE w2 h2 shots with
      | none => none
      | some shots2 => some (shots2, w2, h2)
    else some (shots, width, height)
  else some (shots, width, height)

/-- Lines 133-156 of the compose block with the error contract: the
Bool is the line 141 warning (printed before any resize is attempted);
a none first component means an exception escaped to the line 159
except handler, which prints the error and exits with status 1 without
writing any file. -/
def composeGridE (shots : List Img) (cols : ℕ) : Option Img × Bool :=
  let width := (shots.headD blankImg).w
  let height := (shots.headD blankImg).h
  let grid_rows := (shots.length + cols - 1) / cols
  let warn := decide (65000 < width * cols ∨ 65000 < height * grid_rows)
  ((scaleForOverflowE shots width height grid_rows cols).map fun scaled =>
      pasteAll scaled.1 cols scaled.2.1 scaled.2.2
        (scaled.2.1 * cols) (scaled.2.2 * grid_rows),
   warn)

/-! ## The whole program (gvm.py after argument parsing) -/

/-- The external world the script interacts with, as a record of
oracles: argument values, file-system and decoder behaviour, font
loading outcomes, the font metric box and glyph masks, the per-timestamp
frame reads, whether the capture block raises some exception other than
a failed read, and whether the final save succeeds. -/
structure Env where
  fileExists : Bool
  font_size : ℤ
  grid_cols : ℤ
  extOk : Bool
  openOk : Bool
  fps : ℚ
  total_frames : ℤ
  truetypeOk : Bool
  fallbackOk : Bool
  bboxOk : Bool
  bbox : ℤ × ℤ × ℤ × ℤ
  glyph : String → ℤ → ℤ → Bool
  read : ℕ → Option Img
  captureExc : Bool
  saveOk : Bool

/-- Lines 23-34: the four argument validations. -/
def validationOk (e : Env) : Bool :=
  e.fileExists && decide (0 < e.font_size) && decide (0 < e.grid_cols) && e.extOk

/-- Line 51: duration_sec = total_frames / fps. -/
def duration_sec (e : Env) : ℚ := (e.total_frames : ℚ) / e.fps

/-- What a complete run leaves behind: the process exit status, the
number of cap.release() calls made, the written grid image (none when no
file was written) and the printed warnings and errors. -/
structure RunResult where
  exitCode : ℕ
  releases : ℕ
  output : Option Img
  msgs : List Msg

/-- The whole script as a function of the environment, one if-branch per
exit path of gvm.py (validation, open, metadata, font, text metrics,
capture exception, empty capture, save), with the release calls of
lines 55, 67, 80, 125 and 128 counted.  The compose branch uses the
no-exception evaluation composeGrid; the further exit path of the same
line 159 except handler, taken when the overflow branch raises inside
resize (every time that branch runs, see composeGridE), also exits 1
with no output and no further release, since the handle was already
released at line 128. -/
def run (e : Env) : RunResult :=
  if validationOk e = false then ⟨1, 0, none, [Msg.errValidation]⟩
  else if e.openOk = false then ⟨1, 0, none, [Msg.errOpen]⟩
  else if e.fps ≤ 0 ∨ e.total_frames ≤ 0 then ⟨1, 1, none, [Msg.errMetadata]⟩
  else if e.truetypeOk = false ∧ e.fallbackOk = false then ⟨1, 1, none, [Msg.errFont]⟩
  else if e.bboxOk = false then
    ⟨1, 1, none, (if e.truetypeOk = false then [Msg.warnFontFallback] else []) ++ [Msg.errTextSize]⟩
  else if e.captureExc = true then
    ⟨1, 1, none, (if e.truetypeOk = false then [Msg.warnFontFallback] else []) ++ [Msg.errCapture]⟩
  else
    let text_width := e.bbox.2.2.1 - e.bbox.1
    let text_height := e.bbox.2.2.2 - e.bbox.2.1
    let fs := e.font_size.toNat
    let res := capture (duration_sec e) e.read
      (procFrame e.glyph text_width text_height (max 10 (fs / 2)) (max 1 (fs / 10)))
    if res.screenshots.isEmpty then
      ⟨0, 1, none,
        (if e.truetypeOk = false then [Msg.warnFontFallback] else []) ++
          res.msgs ++ [Msg.errNoScreenshots]⟩
    else
      let composed := composeGrid res.screenshots e.grid_cols.toNat
      if e.saveOk then
        ⟨0, 1, some composed.1,
          (if e.truetypeOk = false then [Msg.warnFontFallback] else []) ++
            res.msgs ++ (if composed.2 then [Msg.warnDims] else [])⟩
      else
        ⟨1, 1, none,
          (if e.truetypeOk = false then [Msg.warnFontFallback] else []) ++
            res.msgs ++ (if composed.2 then [Msg.warnDims] else []) ++ [Msg.errSave]⟩

/-! ## Concrete sample inputs used for witnesses and counterexamples -/

/-- A concrete 4 by 4 frame. -/
def cxFrame : Img := ⟨4, 4, fun _ _ => (1, 2, 3)⟩

/-- A trivial glyph mask (font rendering covers no pixel). -/
def cxGlyph : String → ℤ → ℤ → Bool := fun _ _ _ => false

/-- Concrete per-frame processing: the text box is 8 by 8, margin 10 and
stroke width 2 (the values the code derives from font size 20). -/
def cxProc : ℕ → Img → Img := procFrame cxGlyph 8 8 10 2

/-- A video readable only at timestamp 0. -/
def cxRead : ℕ → Option Img := fun t => if t = 0 then some cxFrame else none

/-- A video readable at every timestamp. -/
def wRead : ℕ → Option Img := fun _ => some cxFrame

/-- A concrete frame wider than the 65000 pixel ceiling on its own. -/
def bigFrame : Img := ⟨70000, 1, fun _ _ => blackC⟩

/-- A fully well-behaved 45 second environment. -/
def sampleEnv : Env where
  fileExists := true
  font_size := 20
  grid_cols := 5
  extOk := true
  openOk := true
  fps := 1
  total_frames := 45
  truetypeOk := true
  fallbackOk := true
  bboxOk := true
  bbox := (0, 0, 8, 8)
  glyph := cxGlyph
  read := wRead
  captureExc := false
  saveOk := true

/-- A 10 second video that opens with valid metadata but whose every
frame read fails: zero screenshots get captured. -/
def eUnreadable : Env := { sampleEnv with total_frames := 10, read := fun _ => none }

/-- A 95 second video whose first read succeeds and whose read at 30
seconds fails. -/
def eFail30 : Env := { sampleEnv with total_frames := 95, read := cxRead }

/-! ## Sampler lemmas -/

/-- takeWhile of a strict-bound test on a contiguous range is the range
clipped at the bound. -/
theorem takeWhile_lt_range' (M : ℕ) :
    ∀ b a, (List.range' a b).takeWhile (fun j => decide (j < M))
      = List.range' a (min b (M - a)) := by
  intro b
  induction b with
  | zero => intro a; simp
  | succ n ih =>
    intro a
    rw [List.range'_succ, List.takeWhile_cons]
    by_cases h : a < M
    · simp only [decide_eq_true_eq, h, if_pos, ih (a + 1)]
      have h1 : min (n + 1) (M - a) = (min n (M - (a + 1))) + 1 := by omega
      rw [h1, List.range'_succ]
    · have h1 : decide (a < M) = false := by simp [h]
      rw [h1]
      simp only [Bool.false_eq_true, if_neg, not_false_eq_true]
      have h2 : min (n + 1) (M - a) = 0 := by omega
      rw [h2]
      simp

/-- A sampling index is inside the video exactly when it is below the
ceiling of duration over interval. -/
theorem lt_duration_iff (D : ℚ) (hD : 0 < D) (j : ℕ) :
    ((j * interval_sec : ℕ) : ℚ) < D ↔ j < ⌈D / (interval_sec : ℚ)⌉.toNat := by
  have h30 : (0 : ℚ) < (interval_sec : ℚ) := by norm_num [interval_sec]
  have hc : 0 < ⌈D / (interval_sec : ℚ)⌉ := Int.ceil_pos.2 (div_pos hD h30)
  have key : ((j * interval_sec : ℕ) : ℚ) < D ↔ (j : ℤ) < ⌈D / (interval_sec : ℚ)⌉ := by
    rw [Int.lt_ceil, lt_div_iff₀ h30]
    push_cast
    constructor <;> intro h <;> linarith
  rw [key]
  omega

/-- When every read succeeds, the attempted timestamps of the capture
loop are the interval multiples of the remaining indices, clipped by the
duration test. -/
theorem captureLoop_attempted_all (D : ℚ) (read : ℕ → Option Img)
    (proc : ℕ → Img → Img) (hread : ∀ t, (read t).isSome) :
    ∀ fuel i, (captureLoop D read proc fuel i).attempted
      = ((List.range' i fuel).takeWhile
          (fun j => decide (((j * interval_sec : ℕ) : ℚ) < D))).map (· * interval_sec) := by
  intro fuel
  induction fuel with
  | zero => intro i; simp [captureLoop]
  | succ n ih =>
    intro i
    rw [List.range'_succ, List.takeWhile_cons]
    by_cases h : D ≤ ((i * interval_sec : ℕ) : ℚ)
    · have h2 : D ≤ (i : ℚ) * (interval_sec : ℚ) := by push_cast at h; exact h
      have h1 : decide (((i * interval_sec : ℕ) : ℚ) < D) = false := by
        simp [not_lt.2 h2]
      rw [h1, captureLoop, if_pos h]
      simp
    · obtain ⟨f, hf⟩ := Option.isSome_iff_exists.1 (hread (i * interval_sec))
      have h2 : (i : ℚ) * (interval_sec : ℚ) < D := by
        push_cast at h; exact lt_of_not_le h
      have h1 : decide (((i * interval_sec : ℕ) : ℚ) < D) = true := by
        simp [h2]
      rw [h1, if_pos rfl, captureLoop, if_neg h, hf, List.map_cons]
      exact congrArg (List.cons (i * interval_sec)) (ih (i + 1))

/-- When every read succeeds, the attempted timestamps of the whole
capture stage form the initial range of interval multiples strictly
below the duration. -/
theorem capture_attempted_eq (D : ℚ) (hD : 0 < D) (read : ℕ → Option Img)
    (proc : ℕ → Img → Img) (hread : ∀ t, (read t).isSome) :
    (capture D read proc).attempted
      = (List.range ⌈D / (interval_sec : ℚ)⌉.toNat).map (· * interval_sec) := by
  rw [capture, captureLoop_attempted_all D read proc hread]
  have hpred : (fun j => decide (((j * interval_sec : ℕ) : ℚ) < D))
      = (fun j => decide (j < ⌈D / (interval_sec : ℚ)⌉.toNat)) := by
    funext j
    exact decide_eq_decide.2 (lt_duration_iff D hD j)
  rw [hpred, takeWhile_lt_range', List.range_eq_range']
  have hle : ⌈D / (interval_sec : ℚ)⌉.toNat ≤ total_screenshots D := by
    have h1 : ⌈D / (interval_sec : ℚ)⌉ ≤ ⌊D / (interval_sec : ℚ)⌋ + 1 :=
      Int.ceil_le_floor_add_one _
    unfold total_screenshots
    omega
  have hmin : min (total_screenshots D) (⌈D / (interval_sec : ℚ)⌉.toNat - 0)
      = ⌈D / (interval_sec : ℚ)⌉.toNat := by omega
  rw [hmin]

/-- Claim C3: for a video of duration D > 0 and the fixed 30 second
interval, the timestamps attempted (when no read fails) are exactly
0, 30, 60, ... up to the last multiple of 30 strictly below D; the
attempted count is floor(D/30) + 1 clipped by the strictly-below rule;
in particular D = 95 attempts exactly 0, 30, 60 and 90. -/
theorem sample_schedule_spec (D : ℚ) (hD : 0 < D) (read : ℕ → Option Img)
    (proc : ℕ → Img → Img) (hread : ∀ t, (read t).isSome) :
    (capture D read proc).attempted
        = (List.range ⌈D / (interval_sec : ℚ)⌉.toNat).map (· * interval_sec) ∧
    (∀ j : ℕ, j < ⌈D / (interval_sec : ℚ)⌉.toNat ↔ ((j * interval_sec : ℕ) : ℚ) < D) ∧
    (capture D read proc).attempted.length =
      (if (⌊D / (interval_sec : ℚ)⌋ : ℚ) * (interval_sec : ℚ) < D
       then ⌊D / (interval_sec : ℚ)⌋.toNat + 1
       else ⌊D / (interval_sec : ℚ)⌋.toNat) ∧
    (D = 95 → (capture D read proc).attempted = [0, 30, 60, 90]) := by
  have hmain := capture_attempted_eq D hD read proc hread
  refine ⟨hmain, fun j => (lt_duration_iff D hD j).symm, ?_, ?_⟩
  · rw [hmain, List.length_map, List.length_range]
    have h30 : (0 : ℚ) < (interval_sec : ℚ) := by norm_num [interval_sec]
    set x := D / (interval_sec : ℚ) with hx
    have hfl : 0 ≤ ⌊x⌋ := Int.floor_nonneg.2 (le_of_lt (div_pos hD h30))
    by_cases hcase : (⌊x⌋ : ℚ) * (interval_sec : ℚ) < D
    · rw [if_pos hcase]
      have h1 : (⌊x⌋ : ℚ) < x := by rw [hx, lt_div_iff₀ h30]; exact hcase
      have h2 : ⌊x⌋ < ⌈x⌉ := by exact_mod_cast lt_of_lt_of_le h1 (Int.le_ceil x)
      have h3 : ⌈x⌉ ≤ ⌊x⌋ + 1 := Int.ceil_le_floor_add_one x
      omega
    · rw [if_neg hcase]
      have h1 : x ≤ (⌊x⌋ : ℚ) := by rw [hx, div_le_iff₀ h30]; exact not_lt.1 hcase
      have h2 : ⌈x⌉ ≤ ⌊x⌋ := Int.ceil_le.2 h1
      have h3 : ⌊x⌋ ≤ ⌈x⌉ := Int.floor_le_ceil x
      omega
  · intro hD95
    subst hD95
    rw [hmain]
    have h4 : ⌈(95 : ℚ) / (interval_sec : ℚ)⌉ = 4 := by
      norm_num [interval_sec, Int.ceil_eq_iff]
    rw [h4]
    decide

/-- Witness for C3 at the 95 second video of the spec example. -/
theorem sample_schedule_spec_witness :
    (capture 95 wRead cxProc).attempted = [0, 30, 60, 90] :=
  (sample_schedule_spec 95 (by norm_num) wRead cxProc (fun _ => rfl)).2.2.2 rfl

/-- When the read at index k is the first to fail and index k is still
inside the video, the capture loop from index i processes exactly the
indices up to k, attempts exactly up to k, and prints one warning. -/
theorem captureLoop_first_failure (D : ℚ) (read : ℕ → Option Img)
    (proc : ℕ → Img → Img) (k : ℕ)
    (hfail : read (k * interval_sec) = none)
    (hsucc : ∀ j, j < k → (read (j * interval_sec)).isSome) :
    ∀ fuel i, i ≤ k → k < i + fuel →
      (∀ j, i ≤ j → j ≤ k → ((j * interval_sec : ℕ) : ℚ) < D) →
      captureLoop D read proc fuel i =
        ⟨(List.range' i (k - i)).map
            (fun j => proc (j * interval_sec) ((read (j * interval_sec)).getD blankImg)),
         (List.range' i (k - i + 1)).map (· * interval_sec),
         [Msg.warnReadFail (k * interval_sec)]⟩ := by
  intro fuel
  induction fuel with
  | zero => intro i h1 h2 _; omega
  | succ n ih =>
    intro i h1 h2 hin
    have hlt : ((i * interval_sec : ℕ) : ℚ) < D := hin i le_rfl h1
    rw [captureLoop, if_neg (not_le.2 hlt)]
    rcases Nat.eq_or_lt_of_le h1 with heq | hik
    · subst heq
      rw [hfail]
      simp [List.range'_one]
    · obtain ⟨f, hf⟩ := Option.isSome_iff_exists.1 (hsucc i hik)
      rw [hf]
      have hrest := ih (i + 1) (by omega) (by omega) (fun j hj1 hj2 => hin j (by omega) hj2)
      rw [hrest]
      have e1 : k - i = (k - (i + 1)) + 1 := by omega
      rw [e1]
      simp [List.range'_succ, hf]

/-- Claim C7: if the read at timestamp 30k fails first (all earlier
reads succeed and 30k is still inside the video), then no timestamp
beyond 30k is attempted, exactly one warning is emitted, the captured
frames are exactly the processed frames of the earlier timestamps in
order with no gaps, and (when at least one frame was captured and the
rest of the environment is healthy) the whole run still completes with
exit status 0 rather than treating the failure as fatal. -/
theorem sampling_stops_at_first_failure (D : ℚ) (read : ℕ → Option Img)
    (proc : ℕ → Img → Img) (k : ℕ)
    (hfail : read (k * interval_sec) = none)
    (hsucc : ∀ j, j < k → (read (j * interval_sec)).isSome)
    (hlt : ((k * interval_sec : ℕ) : ℚ) < D) :
    (capture D read proc).attempted = (List.range (k + 1)).map (· * interval_sec) ∧
    (∀ t ∈ (capture D read proc).attempted, t ≤ k * interval_sec) ∧
    (capture D read proc).msgs = [Msg.warnReadFail (k * interval_sec)] ∧
    (capture D read proc).screenshots = (List.range k).map
      (fun j => proc (j * interval_sec) ((read (j * interval_sec)).getD blankImg)) ∧
    (∀ e : Env, e.read = read → validationOk e = true → e.openOk = true →
      ¬ e.fps ≤ 0 → ¬ e.total_frames ≤ 0 → e.truetypeOk = true → e.bboxOk = true →
      e.captureExc = false → e.saveOk = true → duration_sec e = D → 1 ≤ k →
      (run e).exitCode = 0 ∧ Msg.warnReadFail (k * interval_sec) ∈ (run e).msgs) := by
  have hD : 0 < D := lt_of_le_of_lt (by positivity) hlt
  have hkM : k < ⌈D / (interval_sec : ℚ)⌉.toNat := (lt_duration_iff D hD k).1 hlt
  have hktot : k < 0 + total_screenshots D := by
    have h1 : ⌈D / (interval_sec : ℚ)⌉ ≤ ⌊D / (interval_sec : ℚ)⌋ + 1 :=
      Int.ceil_le_floor_add_one _
    unfold total_screenshots
    omega
  have hmono : ∀ j, 0 ≤ j → j ≤ k → ((j * interval_sec : ℕ) : ℚ) < D := by
    intro j _ hj
    have h1 : j * interval_sec ≤ k * interval_sec := Nat.mul_le_mul_right _ hj
    have h2 : ((j * interval_sec : ℕ) : ℚ) ≤ ((k * interval_sec : ℕ) : ℚ) := by
      exact_mod_cast h1
    exact lt_of_le_of_lt h2 hlt
  have hcall : ∀ proc2 : ℕ → Img → Img, capture D read proc2 =
      ⟨(List.range k).map
          (fun j => proc2 (j * interval_sec) ((read (j * interval_sec)).getD blankImg)),
       (List.range (k + 1)).map (· * interval_sec),
       [Msg.warnReadFail (k * interval_sec)]⟩ := by
    intro proc2
    have hcap := captureLoop_first_failure D read proc2 k hfail hsucc
      (total_screenshots D) 0 (Nat.zero_le k) hktot hmono
    rw [capture, hcap]
    simp [← List.range_eq_range']
  refine ⟨by rw [hcall proc], ?_, by rw [hcall proc], by rw [hcall proc], ?_⟩
  · rw [hcall proc]
    intro t ht
    simp only [List.mem_map, List.mem_range] at ht
    obtain ⟨j, hj, rfl⟩ := ht
    exact Nat.mul_le_mul_right _ (by omega)
  · intro e hre hv ho hfps htf htt hbb hce hsv hdur hk1
    have r1 : ¬ validationOk e = false := by simp [hv]
    have r2 : ¬ e.openOk = false := by simp [ho]
    have r3 : ¬ (e.fps ≤ 0 ∨ e.total_frames ≤ 0) := not_or.2 ⟨hfps, htf⟩
    have r4 : ¬ (e.truetypeOk = false ∧ e.fallbackOk = false) := by simp [htt]
    have r5 : ¬ e.bboxOk = false := by simp [hbb]
    have r6 : ¬ e.captureExc = true := by simp [hce]
    rw [run, if_neg r1, if_neg r2, if_neg r3, if_neg r4, if_neg r5, if_neg r6]
    simp only [hre, hdur]
    rw [hcall]
    have hne : ¬ ((List.range k).map
        (fun j => procFrame e.glyph (e.bbox.2.2.1 - e.bbox.1) (e.bbox.2.2.2 - e.bbox.2.1)
          (max 10 (e.font_size.toNat / 2)) (max 1 (e.font_size.toNat / 10))
          (j * interval_sec) ((read (j * interval_sec)).getD blankImg))).isEmpty = true := by
      simp [List.isEmpty_iff, List.range_eq_nil]
      omega
    simp [hne, hsv, htt]

/-- Witness for C7: a 95 second video whose read at 30 seconds is the
first to fail still writes the grid and exits 0, with the warning. -/
theorem sampling_stops_at_first_failure_witness :
    (run eFail30).exitCode = 0 ∧ Msg.warnReadFail 30 ∈ (run eFail30).msgs :=
  (sampling_stops_at_first_failure (duration_sec eFail30) cxRead cxProc 1
      rfl
      (fun j hj => by
        have hj0 : j = 0 := by omega
        subst hj0
        rfl)
      (by norm_num [duration_sec, eFail30, sampleEnv, interval_sec])).2.2.2.2
    eFail30 rfl rfl rfl
    (by norm_num [eFail30, sampleEnv])
    (by norm_num [eFail30, sampleEnv])
    rfl rfl rfl rfl rfl le_rfl

/-- Claim C5: every captured frame is unconditionally resized to half
its decoded dimensions after annotation and before being collected, so
the first screenshot (which fixes the grid cell size) has half the
native frame size, not the native size itself. -/
theorem frame_halved (glyph : String → ℤ → ℤ → Bool) (tw th : ℤ) (margin sw : ℕ)
    (t : ℕ) (f : Img) (hfw : 0 < f.w) :
    (procFrame glyph tw th margin sw t f).w = f.w / 2 ∧
    (procFrame glyph tw th margin sw t f).h = f.h / 2 ∧
    (procFrame glyph tw th margin sw t f).w ≠ f.w ∧
    (∀ (D : ℚ) (read : ℕ → Option Img), 0 < D → read 0 = some f →
      ((capture D read (procFrame glyph tw th margin sw)).screenshots.headD blankImg).w
          = f.w / 2 ∧
      ((capture D read (procFrame glyph tw th margin sw)).screenshots.headD blankImg).h
          = f.h / 2) := by
  refine ⟨rfl, rfl, ?_, ?_⟩
  · show f.w / 2 ≠ f.w
    omega
  · intro D read hD hr0
    have hfl : 0 ≤ ⌊D / (interval_sec : ℚ)⌋ :=
      Int.floor_nonneg.2 (le_of_lt (div_pos hD (by norm_num [interval_sec])))
    have htot : total_screenshots D = (⌊D / (interval_sec : ℚ)⌋).toNat + 1 := by
      unfold total_screenshots
      omega
    have hq : ¬ D ≤ ((0 * interval_sec : ℕ) : ℚ) := by
      simpa using not_le.2 hD
    rw [capture, htot, captureLoop, if_neg hq, Nat.zero_mul, hr0]
    exact ⟨rfl, rfl⟩

/-- Witness for C5 on the concrete 4 by 4 frame: the collected frame is
2 by 2, half the native size. -/
theorem frame_halved_witness :
    (cxProc 0 cxFrame).w = 2 ∧
    ((capture 10 cxRead cxProc).screenshots.headD blankImg).w = 2 ∧
    (cxProc 0 cxFrame).w ≠ 4 := by
  have h := frame_halved cxGlyph 8 8 10 2 0 cxFrame (by norm_num [cxFrame])
  exact ⟨h.1, (h.2.2.2 10 cxRead (by norm_num) rfl).1, h.2.2.1⟩

/-! ## Composer lemmas -/

theorem pasteImg_pix (canvas img : Img) (ox oy x y : ℕ) :
    (pasteImg canvas img ox oy).pix x y =
      if ox ≤ x ∧ x < ox + img.w ∧ oy ≤ y ∧ y < oy + img.h then
        img.pix (x - ox) (y - oy)
      else canvas.pix x y := rfl

theorem lt_div_mul_add (x cw : ℕ) (hw : 0 < cw) : x < x / cw * cw + cw := by
  have h1 := Nat.div_add_mod x cw
  have h2 := Nat.mod_lt x hw
  rw [Nat.mul_comm]
  generalize hX : cw * (x / cw) = X at h1 ⊢
  omega

theorem sub_div_mul_eq_mod (x cw : ℕ) : x - x / cw * cw = x % cw := by
  have h1 := Nat.div_add_mod x cw
  rw [Nat.mul_comm]
  generalize hX : cw * (x / cw) = X at h1 ⊢
  omega

/-- Pasting preserves the canvas dimensions. -/
theorem pasteFrom_wh (cols cw ch : ℕ) :
    ∀ (shots : List Img) (i0 : ℕ) (canvas : Img),
      (pasteFrom cols cw ch shots i0 canvas).w = canvas.w ∧
      (pasteFrom cols cw ch shots i0 canvas).h = canvas.h := by
  intro shots
  induction shots with
  | nil => intro i0 canvas; exact ⟨rfl, rfl⟩
  | cons s rest ih =>
    intro i0 canvas
    rw [pasteFrom]
    exact ih (i0 + 1) (pasteImg canvas s ((i0 % cols) * cw) ((i0 / cols) * ch))

/-- The pixel content of the paste loop over equally sized screenshots:
the pixel at (x, y) comes from the screenshot whose grid cell contains
the point when that screenshot exists, and from the underlying canvas
otherwise. -/
theorem pasteFrom_pix (cols cw ch : ℕ) (hc : 0 < cols) (hw : 0 < cw) (hh : 0 < ch) :
    ∀ (shots : List Img), (∀ s ∈ shots, s.w = cw ∧ s.h = ch) →
    ∀ (i0 : ℕ) (canvas : Img) (x y : ℕ),
      (pasteFrom cols cw ch shots i0 canvas).pix x y =
        if i0 ≤ y / ch * cols + x / cw ∧ y / ch * cols + x / cw < i0 + shots.length
            ∧ x / cw < cols then
          (shots.getD (y / ch * cols + x / cw - i0) blankImg).pix (x % cw) (y % ch)
        else canvas.pix x y := by
  intro shots
  induction shots with
  | nil =>
    intro _ i0 canvas x y
    rw [pasteFrom, if_neg]
    intro hcon
    simp only [List.length_nil] at hcon
    omega
  | cons s rest ih =>
    intro hall i0 canvas x y
    have hsw := (hall s (List.mem_cons_self s rest)).1
    have hsh := (hall s (List.mem_cons_self s rest)).2
    rw [pasteFrom]
    rw [ih (fun s2 hs2 => hall s2 (List.mem_cons_of_mem _ hs2)) (i0 + 1)
      (pasteImg canvas s ((i0 % cols) * cw) ((i0 / cols) * ch)) x y]
    by_cases h1 : i0 + 1 ≤ y / ch * cols + x / cw ∧
        y / ch * cols + x / cw < (i0 + 1) + rest.length ∧ x / cw < cols
    · rw [if_pos h1, if_pos (by simp only [List.length_cons]; omega)]
      have e1 : y / ch * cols + x / cw - i0 = (y / ch * cols + x / cw - (i0 + 1)) + 1 := by
        omega
      rw [e1, List.getD_cons_succ]
    · rw [if_neg h1, pasteImg_pix, hsw, hsh]
      by_cases h2 : (i0 % cols) * cw ≤ x ∧ x < (i0 % cols) * cw + cw ∧
          (i0 / cols) * ch ≤ y ∧ y < (i0 / cols) * ch + ch
      · rw [if_pos ⟨h2.1, h2.2.1, h2.2.2.1, h2.2.2.2⟩]
        have hcx : x / cw = i0 % cols :=
          Nat.div_eq_of_lt_le h2.1 (by rw [Nat.succ_mul]; exact h2.2.1)
        have hcy : y / ch = i0 / cols :=
          Nat.div_eq_of_lt_le h2.2.2.1 (by rw [Nat.succ_mul]; exact h2.2.2.2)
        have hji : y / ch * cols + x / cw = i0 := by
          rw [hcx, hcy, Nat.mul_comm]
          exact Nat.div_add_mod i0 cols
        have hcolt : x / cw < cols := by rw [hcx]; exact Nat.mod_lt _ hc
        rw [if_pos (by simp only [List.length_cons]; omega)]
        have e0 : y / ch * cols + x / cw - i0 = 0 := by omega
        rw [e0, List.getD_cons_zero]
        have ex : x - (i0 % cols) * cw = x % cw := by
          rw [← hcx]; exact sub_div_mul_eq_mod x cw
        have ey : y - (i0 / cols) * ch = y % ch := by
          rw [← hcy]; exact sub_div_mul_eq_mod y ch
        rw [ex, ey]
      · rw [if_neg (fun hcc => h2 ⟨hcc.1, hcc.2.1, hcc.2.2.1, hcc.2.2.2⟩), if_neg]
        intro hcon
        simp only [List.length_cons] at hcon
        have hji : y / ch * cols + x / cw = i0 := by omega
        have hcc : x / cw = i0 % cols := by
          rw [← hji, Nat.add_comm, Nat.add_mul_mod_self_right,
            Nat.mod_eq_of_lt hcon.2.2]
        have hrr : y / ch = i0 / cols := by
          rw [← hji, Nat.add_comm, Nat.add_mul_div_right _ _ hc,
            Nat.div_eq_of_lt hcon.2.2, Nat.zero_add]
        apply h2
        refine ⟨?_, ?_, ?_, ?_⟩
        · rw [← hcc]; exact Nat.div_mul_le_self x cw
        · rw [← hcc]; exact lt_div_mul_add x cw hw
        · rw [← hrr]; exact Nat.div_mul_le_self y ch
        · rw [← hrr]; exact lt_div_mul_add y ch hh

/-- The row count (n + c - 1) / c computed by the code is the ceiling
of n / c. -/
theorem ceil_div_nat (n c : ℕ) (hc : 0 < c) :
    (n + c - 1) / c = ⌈(n : ℚ) / (c : ℚ)⌉.toNat := by
  have hcq : (0 : ℚ) < (c : ℚ) := by exact_mod_cast hc
  have h1 := Nat.div_add_mod (n + c - 1) c
  have h2 : (n + c - 1) % c < c := Nat.mod_lt _ hc
  set m := (n + c - 1) / c with hm
  have key1 : n ≤ m * c := by
    rw [Nat.mul_comm]
    generalize hX : c * m = X at h1 ⊢
    omega
  have key2 : m * c < n + c := by
    rw [Nat.mul_comm]
    generalize hX : c * m = X at h1 ⊢
    omega
  have hceil : ⌈(n : ℚ) / (c : ℚ)⌉ = (m : ℤ) := by
    rw [Int.ceil_eq_iff]
    constructor
    · rw [lt_div_iff₀ hcq]
      have h3 : (m : ℚ) * c < (n : ℚ) + c := by exact_mod_cast key2
      push_cast
      linarith
    · rw [div_le_iff₀ hcq]
      exact_mod_cast key1
  rw [hceil, Int.toNat_natCast]

theorem getD_eq_get (l : List Img) (n : ℕ) (d : Img) (h : n < l.length) :
    l.getD n d = l.get ⟨n, h⟩ := by
  simp [List.getD_eq_getElem?_getD, List.getElem?_eq_getElem h]

/-- Claim C6: for a nonempty list of equally sized frames and a column
count within the pixel ceiling, the grid has row count ceil(N / C),
canvas size (cellWidth * C, cellHeight * rows), frame i occupies the
cell (i mod C, i div C) at pixel offset (col * cellWidth,
row * cellHeight) in row-major order, and trailing unfilled cells stay
background white. -/
theorem grid_layout_spec (shots : List Img) (cols cw ch : ℕ)
    (hne : shots ≠ []) (hall : ∀ s ∈ shots, s.w = cw ∧ s.h = ch)
    (hc : 0 < cols) (hw : 0 < cw) (hh : 0 < ch)
    (hfit1 : cw * cols ≤ 65000)
    (hfit2 : ch * ((shots.length + cols - 1) / cols) ≤ 65000) :
    (shots.length + cols - 1) / cols = ⌈(shots.length : ℚ) / (cols : ℚ)⌉.toNat ∧
    (composeGrid shots cols).1.w = cw * cols ∧
    (composeGrid shots cols).1.h = ch * ((shots.length + cols - 1) / cols) ∧
    (∀ i (hi : i < shots.length), ∀ dx dy, dx < cw → dy < ch →
      (composeGrid shots cols).1.pix (i % cols * cw + dx) (i / cols * ch + dy)
        = (shots.get ⟨i, hi⟩).pix dx dy) ∧
    (∀ j, shots.length ≤ j → j < ((shots.length + cols - 1) / cols) * cols →
      ∀ dx dy, dx < cw → dy < ch →
      (composeGrid shots cols).1.pix (j % cols * cw + dx) (j / cols * ch + dy)
        = whiteC) := by
  have hhead : (shots.headD blankImg).w = cw ∧ (shots.headD blankImg).h = ch := by
    cases shots with
    | nil => exact absurd rfl hne
    | cons s0 rest => exact hall s0 (List.mem_cons_self s0 rest)
  have hnot : ¬ (65000 < cw * cols ∨
      65000 < ch * ((shots.length + cols - 1) / cols)) :=
    not_or.2 ⟨not_lt.2 hfit1, not_lt.2 hfit2⟩
  have hscale : scaleForOverflow shots cw ch ((shots.length + cols - 1) / cols) cols
      = (shots, cw, ch) := by
    simp only [scaleForOverflow]
    rw [if_neg hnot]
  have hcg : composeGrid shots cols
      = (pasteAll shots cols cw ch (cw * cols)
          (ch * ((shots.length + cols - 1) / cols)),
         decide (65000 < cw * cols ∨
           65000 < ch * ((shots.length + cols - 1) / cols))) := by
    simp only [composeGrid, hhead.1, hhead.2, hscale]
  refine ⟨ceil_div_nat shots.length cols hc, ?_, ?_, ?_, ?_⟩
  · rw [hcg]
    exact (pasteFrom_wh cols cw ch shots 0 _).1
  · rw [hcg]
    exact (pasteFrom_wh cols cw ch shots 0 _).2
  · intro i hi dx dy hdx hdy
    rw [hcg]
    show (pasteFrom cols cw ch shots 0 _).pix _ _ = _
    rw [pasteFrom_pix cols cw ch hc hw hh shots hall 0 _ _ _]
    have hX : (i % cols * cw + dx) / cw = i % cols :=
      Nat.div_eq_of_lt_le (Nat.le_add_right _ _)
        (by rw [Nat.succ_mul]; exact Nat.add_lt_add_left hdx _)
    have hY : (i / cols * ch + dy) / ch = i / cols :=
      Nat.div_eq_of_lt_le (Nat.le_add_right _ _)
        (by rw [Nat.succ_mul]; exact Nat.add_lt_add_left hdy _)
    have hXm : (i % cols * cw + dx) % cw = dx := by
      rw [Nat.mul_comm, Nat.mul_add_mod, Nat.mod_eq_of_lt hdx]
    have hYm : (i / cols * ch + dy) % ch = dy := by
      rw [Nat.mul_comm, Nat.mul_add_mod, Nat.mod_eq_of_lt hdy]
    rw [hX, hY]
    have hj : i / cols * cols + i % cols = i := by
      rw [Nat.mul_comm]
      exact Nat.div_add_mod i cols
    rw [hj]
    rw [if_pos ⟨Nat.zero_le i, by omega, Nat.mod_lt _ hc⟩]
    rw [Nat.sub_zero, getD_eq_get shots i blankImg hi, hXm, hYm]
  · intro j hjN hjC dx dy hdx hdy
    rw [hcg]
    show (pasteFrom cols cw ch shots 0 _).pix _ _ = _
    rw [pasteFrom_pix cols cw ch hc hw hh shots hall 0 _ _ _]
    have hX : (j % cols * cw + dx) / cw = j % cols :=
      Nat.div_eq_of_lt_le (Nat.le_add_right _ _)
        (by rw [Nat.succ_mul]; exact Nat.add_lt_add_left hdx _)
    have hY : (j / cols * ch + dy) / ch = j / cols :=
      Nat.div_eq_of_lt_le (Nat.le_add_right _ _)
        (by rw [Nat.succ_mul]; exact Nat.add_lt_add_left hdy _)
    rw [hX, hY]
    have hj : j / cols * cols + j % cols = j := by
      rw [Nat.mul_comm]
      exact Nat.div_add_mod j cols
    rw [hj]
    rw [if_neg (fun hcon => by omega)]

/-- Witness for C6: three 4 by 4 frames in 2 columns give an 8 wide
canvas, frame 2 lands at cell (0, 1), and the unfilled cell (1, 1) is
white. -/
theorem grid_layout_spec_witness :
    (composeGrid [cxFrame, cxFrame, cxFrame] 2).1.w = 8 ∧
    (composeGrid [cxFrame, cxFrame, cxFrame] 2).1.pix 1 5 = (1, 2, 3) ∧
    (composeGrid [cxFrame, cxFrame, cxFrame] 2).1.pix 5 5 = whiteC := by
  have h := grid_layout_spec [cxFrame, cxFrame, cxFrame] 2 4 4
    (by simp)
    (by
      intro s hs
      simp only [List.mem_cons, List.not_mem_nil, or_false] at hs
      rcases hs with rfl | rfl | rfl <;> exact ⟨rfl, rfl⟩)
    (by decide) (by decide) (by decide) (by decide) (by decide)
  exact ⟨h.2.1,
    h.2.2.2.1 2 (by decide) 1 1 (by decide) (by decide),
    h.2.2.2.2 3 (by decide) (by decide) 1 1 (by decide) (by decide)⟩

/-- Off the overflow branch the error-aware compose agrees with the
no-exception evaluation used elsewhere in the development: nothing can
raise there. -/
theorem composeGridE_agrees (shots : List Img) (cols : ℕ)
    (hnot : ¬ (65000 < (shots.headD blankImg).w * cols ∨
      65000 < (shots.headD blankImg).h * ((shots.length + cols - 1) / cols))) :
    composeGridE shots cols
      = (some (composeGrid shots cols).1, (composeGrid shots cols).2) := by
  simp only [composeGridE, composeGrid, scaleForOverflowE, scaleForOverflow]
  rw [if_neg hnot, if_neg hnot]
  rfl

/-- Claim C2 (code-bug evidence): whenever the unscaled canvas exceeds
65000 pixels in either dimension, the computed factor
min(65000 // gridWidth, 65000 // gridHeight) is 0 (one of the two floor
divisions is of 65000 by something larger), the code multiplies the
cell dimensions by it instead of dividing, and the resize of every
screenshot to the resulting (0, 0) target raises ValueError, so the
compose block aborts to the line 159 handler: the warning is printed
but composition never completes, contradicting the claim and the spec
(exit status 1, no output file).  The factor-is-zero conjunct also
shows it is never usable as a divisor. -/
theorem overflow_compose_raises (shots : List Img) (cols cw ch : ℕ)
    (hne : shots ≠ []) (hall : ∀ s ∈ shots, s.w = cw ∧ s.h = ch)
    (hover : 65000 < cw * cols ∨
      65000 < ch * ((shots.length + cols - 1) / cols)) :
    scale_factor_of (cw * cols) (ch * ((shots.length + cols - 1) / cols)) = 0 ∧
    (composeGridE shots cols).1 = none ∧
    (composeGridE shots cols).2 = true := by
  have hhead : (shots.headD blankImg).w = cw ∧ (shots.headD blankImg).h = ch := by
    cases shots with
    | nil => exact absurd rfl hne
    | cons s0 rest => exact hall s0 (List.mem_cons_self s0 rest)
  have hsf0 : scale_factor_of (cw * cols) (ch * ((shots.length + cols - 1) / cols)) = 0 := by
    rcases hover with h | h
    · rw [scale_factor_of, Nat.div_eq_of_lt h]
      simp
    · rw [scale_factor_of, Nat.div_eq_of_lt h]
      simp
  refine ⟨hsf0, ?_, ?_⟩
  · have hscaleE : scaleForOverflowE shots cw ch ((shots.length + cols - 1) / cols) cols
        = none := by
      simp only [scaleForOverflowE]
      rw [if_pos hover, if_pos (by omega), hsf0, Nat.mul_zero, Nat.mul_zero]
      cases shots with
      | nil => exact absurd rfl hne
      | cons s0 rest => rfl
    simp only [composeGridE, hhead.1, hhead.2, hscaleE, Option.map_none']
  · simp only [composeGridE, hhead.1, hhead.2]
    exact decide_eq_true hover

/-- Witness for C2: one 70000 by 1 screenshot in a single column enters
the overflow branch, the factor is 0, the warning is emitted, and the
composition aborts with the resize error instead of completing. -/
theorem overflow_compose_raises_witness :
    scale_factor_of 70000 1 = 0 ∧
    (composeGridE [bigFrame] 1).1 = none ∧
    (composeGridE [bigFrame] 1).2 = true :=
  overflow_compose_raises [bigFrame] 1 70000 1
    (by simp)
    (by
      intro s hs
      simp only [List.mem_cons, List.not_mem_nil, or_false] at hs
      subst hs
      exact ⟨rfl, rfl⟩)
    (by decide)

/-- Counterexample to C4 as stated: a 10 second video (shorter than one
interval, frame at 0 readable) with the default 5 columns captures
exactly one frame, yet the written canvas is 10 pixels wide while one
cell is only 2 pixels wide - the composite is not a canvas of exactly
one cell. -/
theorem single_cell_claim_cx :
    (capture 10 cxRead cxProc).screenshots.length = 1 ∧
    ((capture 10 cxRead cxProc).screenshots.headD blankImg).w = 2 ∧
    (composeGrid (capture 10 cxRead cxProc).screenshots 5).1.w = 10 ∧
    (10 : ℕ) ≠ 2 := by
  have h9 : total_screenshots 10 = 1 := by
    unfold total_screenshots interval_sec
    norm_num
  have hcap : (capture 10 cxRead cxProc).screenshots = [cxProc 0 cxFrame] := by
    rw [capture, h9, captureLoop, if_neg (by norm_num), Nat.zero_mul,
      show cxRead 0 = some cxFrame from rfl]
    rfl
  rw [hcap]
  exact ⟨rfl, rfl, rfl, by decide⟩

/-- Claim C4 (amended): a video with 0 < duration < 30 whose frame at
timestamp 0 is readable captures exactly one frame (at timestamp 0),
and the composed grid has exactly one row and the requested number of
columns of cells: canvas (cellWidth * columns, cellHeight); the canvas
is a single cell exactly when columns = 1. -/
theorem short_video_one_frame_grid (D : ℚ) (read : ℕ → Option Img)
    (proc : ℕ → Img → Img) (f : Img) (cols : ℕ)
    (hD0 : 0 < D) (hD30 : D < 30) (hread0 : read 0 = some f) (hc : 0 < cols)
    (hfit1 : (proc 0 f).w * cols ≤ 65000) (hfit2 : (proc 0 f).h ≤ 65000) :
    (capture D read proc).screenshots = [proc 0 f] ∧
    (((capture D read proc).screenshots.length + cols - 1) / cols = 1) ∧
    (composeGrid (capture D read proc).screenshots cols).1.w = (proc 0 f).w * cols ∧
    (composeGrid (capture D read proc).screenshots cols).1.h = (proc 0 f).h ∧
    (cols = 1 →
      (composeGrid (capture D read proc).screenshots cols).1.w = (proc 0 f).w) := by
  have h9 : total_screenshots D = 1 := by
    have hfl : ⌊D / (interval_sec : ℚ)⌋ = 0 := by
      rw [Int.floor_eq_zero_iff]
      refine Set.mem_Ico.2 ⟨div_nonneg hD0.le (by norm_num [interval_sec]), ?_⟩
      rw [div_lt_one (by norm_num [interval_sec])]
      calc D < 30 := hD30
        _ ≤ (interval_sec : ℚ) := by norm_num [interval_sec]
    unfold total_screenshots
    rw [hfl]
    rfl
  have hcap : (capture D read proc).screenshots = [proc 0 f] := by
    rw [capture, h9, captureLoop, if_neg (by simpa using not_le.2 hD0),
      Nat.zero_mul, hread0]
    rfl
  have hrows : (([proc 0 f] : List Img).length + cols - 1) / cols = 1 := by
    simp only [List.length_singleton]
    rw [show 1 + cols - 1 = cols by omega]
    exact Nat.div_self hc
  have hnot : ¬ (65000 < (proc 0 f).w * cols ∨
      65000 < (proc 0 f).h * ((([proc 0 f] : List Img).length + cols - 1) / cols)) := by
    rw [hrows, Nat.mul_one]
    exact not_or.2 ⟨not_lt.2 hfit1, not_lt.2 hfit2⟩
  have hscale : scaleForOverflow [proc 0 f] (proc 0 f).w (proc 0 f).h
      ((([proc 0 f] : List Img).length + cols - 1) / cols) cols
      = ([proc 0 f], (proc 0 f).w, (proc 0 f).h) := by
    simp only [scaleForOverflow]
    rw [if_neg hnot]
  have hw : (composeGrid [proc 0 f] cols).1.w = (proc 0 f).w * cols := by
    simp only [composeGrid, List.headD_cons, hscale]
    exact (pasteFrom_wh cols _ _ _ 0 _).1
  have hht : (composeGrid [proc 0 f] cols).1.h = (proc 0 f).h := by
    simp only [composeGrid, List.headD_cons, hscale]
    refine ((pasteFrom_wh cols _ _ _ 0 _).2).trans ?_
    show (proc 0 f).h * ((([proc 0 f] : List Img).length + cols - 1) / cols) = _
    rw [hrows, Nat.mul_one]
  refine ⟨hcap, by rw [hcap]; exact hrows, by rw [hcap]; exact hw,
    by rw [hcap]; exact hht, ?_⟩
  intro h1
  rw [hcap, hw, h1, Nat.mul_one]

/-- Witness for the amended C4 on the concrete 10 second video with 5
columns. -/
theorem short_video_one_frame_grid_witness :
    (capture 10 cxRead cxProc).screenshots = [cxProc 0 cxFrame] ∧
    (composeGrid (capture 10 cxRead cxProc).screenshots 5).1.w
      = (cxProc 0 cxFrame).w * 5 := by
  have h := short_video_one_frame_grid 10 cxRead cxProc cxFrame 5
    (by norm_num) (by norm_num) rfl (by decide) (by decide) (by decide)
  exact ⟨h.1, h.2.2.1⟩

/-! ## Annotator lemmas -/

theorem pyRange_mem (lo hi a : ℤ) : a ∈ pyRange lo hi ↔ lo ≤ a ∧ a < hi := by
  rw [pyRange, List.mem_map]
  constructor
  · rintro ⟨k, hk, rfl⟩
    rw [List.mem_range] at hk
    omega
  · rintro ⟨h1, h2⟩
    refine ⟨(a - lo).toNat, ?_, ?_⟩
    · rw [List.mem_range]
      omega
    · omega

/-- Claim C8: the label is the zero padded HH:MM:SS string with
hours = t / 3600, minutes = (t mod 3600) / 60, seconds = t mod 60; the
anchor is bottom-right with margin max(10, fontSize / 2); the draw
operations are the black text at every integer offset within plus or
minus strokeWidth = max(1, fontSize / 10) in both axes, followed by one
white draw at the unshifted anchor (the last operation). -/
theorem annotate_overlay_spec (tw th : ℤ) (fs : ℕ) (imgW imgH t : ℕ) :
    fmtTimestamp t
      = pad2 (t / 3600) ++ ":" ++ pad2 (t % 3600 / 60) ++ ":" ++ pad2 (t % 60) ∧
    (annotateOps tw th (max 10 (fs / 2)) (max 1 (fs / 10)) imgW imgH).getLast?
      = some ((((imgW : ℤ) - tw - (max 10 (fs / 2) : ℕ)),
               ((imgH : ℤ) - th - (max 10 (fs / 2) : ℕ))), whiteC) ∧
    (∀ (p : ℤ × ℤ) (c : Color),
      (p, c) ∈ annotateOps tw th (max 10 (fs / 2)) (max 1 (fs / 10)) imgW imgH ↔
        ((c = blackC ∧
          ((imgW : ℤ) - tw - (max 10 (fs / 2) : ℕ)) - (max 1 (fs / 10) : ℕ) ≤ p.1 ∧
          p.1 ≤ ((imgW : ℤ) - tw - (max 10 (fs / 2) : ℕ)) + (max 1 (fs / 10) : ℕ) ∧
          ((imgH : ℤ) - th - (max 10 (fs / 2) : ℕ)) - (max 1 (fs / 10) : ℕ) ≤ p.2 ∧
          p.2 ≤ ((imgH : ℤ) - th - (max 10 (fs / 2) : ℕ)) + (max 1 (fs / 10) : ℕ)) ∨
         (c = whiteC ∧
          p = (((imgW : ℤ) - tw - (max 10 (fs / 2) : ℕ)),
               ((imgH : ℤ) - th - (max 10 (fs / 2) : ℕ)))))) := by
  refine ⟨rfl, ?_, ?_⟩
  · simp only [annotateOps]
    simp
  · intro p c
    obtain ⟨p1, p2⟩ := p
    simp only [annotateOps, List.mem_append, List.mem_flatMap, List.mem_map,
      List.mem_singleton, pyRange_mem, Prod.mk.injEq]
    constructor
    · rintro (⟨ox, hox, oy, hoy, ⟨hx1, hy1⟩, hcb⟩ | ⟨⟨hx1, hy1⟩, hcw⟩)
      · exact Or.inl ⟨hcb.symm, by omega, by omega, by omega, by omega⟩
      · exact Or.inr ⟨hcw, hx1, hy1⟩
    · rintro (⟨hcb, hb1, hb2, hb3, hb4⟩ | ⟨hcw, hx1, hy1⟩)
      · exact Or.inl ⟨p1 - ((imgW : ℤ) - tw - (max 10 (fs / 2) : ℕ)), by omega,
          p2 - ((imgH : ℤ) - th - (max 10 (fs / 2) : ℕ)), by omega,
          ⟨by omega, by omega⟩, hcb.symm⟩
      · exact Or.inr ⟨⟨hx1, hy1⟩, hcw⟩

/-! ## Whole-program theorems -/

/-- Claim C9: once the video handle is successfully opened (the
argument validation passed and the open succeeded), every terminating
path of the program, success or failure, releases the handle exactly
once. -/
theorem release_exactly_once (e : Env) (hv : validationOk e = true)
    (ho : e.openOk = true) : (run e).releases = 1 := by
  rw [run, if_neg (by simp [hv]), if_neg (by simp [ho])]
  split_ifs <;> first
    | rfl
    | (unfold_let; split_ifs <;> rfl)

/-- Witness for C9 on the concrete healthy environment. -/
theorem release_exactly_once_witness : (run sampleEnv).releases = 1 :=
  release_exactly_once sampleEnv rfl rfl

/-- Claim C10: the pipeline is a pure function of its environment
(arguments, video content, font behaviour), so two runs on identical
inputs produce identical results, including a pixel-for-pixel identical
grid image. -/
theorem pipeline_deterministic (e1 e2 : Env) (h : e1 = e2) :
    run e1 = run e2 ∧ (run e1).output = (run e2).output := by
  subst h
  exact ⟨rfl, rfl⟩

/-- Witness for C10 on the concrete healthy environment. -/
theorem pipeline_deterministic_witness :
    run sampleEnv = run sampleEnv ∧
      (run sampleEnv).output = (run sampleEnv).output :=
  pipeline_deterministic sampleEnv sampleEnv rfl

/-- Claim C1 (code-bug evidence): on a video that opens with valid
metadata but whose every frame read fails, zero frames are captured,
the no-screenshots error is printed and no output file is written -
but the handle is released and the process falls through to a normal
exit with status 0 rather than the claimed status 1 (line 158 of gvm.py
prints the error without calling sys.exit(1)). -/
theorem empty_capture_exits_zero :
    (run eUnreadable).exitCode = 0 ∧ (run eUnreadable).output = none ∧
      Msg.errNoScreenshots ∈ (run eUnreadable).msgs ∧
      (run eUnreadable).releases = 1 := by
  have h9 : total_screenshots 10 = 1 := by
    unfold total_screenshots interval_sec
    norm_num
  have hdur : duration_sec eUnreadable = 10 := by
    norm_num [duration_sec, eUnreadable, sampleEnv]
  have hcap : ∀ proc2 : ℕ → Img → Img,
      capture 10 (fun _ => none) proc2 = ⟨[], [0], [Msg.warnReadFail 0]⟩ := by
    intro proc2
    rw [capture, h9, captureLoop, if_neg (by norm_num), Nat.zero_mul]
  rw [run, if_neg (by decide), if_neg (by decide),
    if_neg (by norm_num [eUnreadable, sampleEnv]), if_neg (by decide),
    if_neg (by decide), if_neg (by decide)]
  unfold_let
  rw [hdur, show eUnreadable.read = (fun _ => none) from rfl, hcap]
  simp

end GVM
